import Mathlib

/-!
Verification of the core logic of a soccer-analysis dashboard (`src/main.py`).

The two operations under study are:
* `player_radar_chart` — the PeerComparisonEngine: min-max normalized
  comparison of a player against the average of same-position peers;
* `predict_player_performance` — the PositionModelRouter: eager loading of
  per-position (model, scaler) artifact pairs, position validation, ordered
  feature-vector construction, scaling and classification.

Numeric attribute values are embedded as rationals (`ℚ`).  The float
division `(value - min) / (max - min)` of the source yields NaN or ±inf
when `max = min`; a normalized entry is therefore embedded as `Option ℚ`,
with `none` standing for such an undefined (NaN/inf) float, and `none` also
standing for a missing (NaN) cell of the data frame, which pandas `min`,
`max` and `mean` skip.
-/

namespace Soccer

/-- A row of the data frame: a player record with its `Name` and `Position`
columns and the numeric columns as an association list; an attribute absent
from the list models a NaN cell. -/
structure PlayerRecord where
  Name : String
  Position : String
  attrs : List (String × ℚ)
deriving DecidableEq

/-- Reading a numeric column of a record; `none` models a NaN cell. -/
def getAttr (r : PlayerRecord) (f : String) : Option ℚ :=
  (r.attrs.find? (fun kv => kv.1 == f)).map (fun kv => kv.2)

/-- The peer group of `df[df[Position] == subject.Position]` (line 64 of
the source): every record whose `Position` equals the subject's, by exact
string comparison. -/
def peerGroup (df : List PlayerRecord) (subject : PlayerRecord) : List PlayerRecord :=
  df.filter (fun r => r.Position == subject.Position)

/-- The values present in a column across a list of records (pandas
aggregations skip NaN cells, i.e. absent attributes). -/
def peerVals (peers : List PlayerRecord) (f : String) : List ℚ :=
  peers.filterMap (fun r => getAttr r f)

/-- Column minimum (`.min()`); `none` on an all-NaN/empty column. -/
def colMin : List ℚ → Option ℚ
  | [] => none
  | x :: xs => some (xs.foldl min x)

/-- Column maximum (`.max()`); `none` on an all-NaN/empty column. -/
def colMax : List ℚ → Option ℚ
  | [] => none
  | x :: xs => some (xs.foldl max x)

/-- Column arithmetic mean (`.mean()`). -/
def colMean (l : List ℚ) : ℚ := l.sum / (l.length : ℚ)

/-- The source's `(value - min) / (max - min)` (lines 70-71): when
`max - min = 0` the float division produces NaN or ±inf, embedded as
`none`. -/
def normalize (v mn mx : ℚ) : Option ℚ :=
  if mx - mn = 0 then none else some ((v - mn) / (mx - mn))

/-- One normalized entry: undefined whenever the value itself or the
column min/max is undefined, or the division degenerates. -/
def normEntry (v : Option ℚ) (vals : List ℚ) : Option ℚ :=
  match v, colMin vals, colMax vals with
  | some x, some mn, some mx => normalize x mn mx
  | _, _, _ => none

/-- The output of the comparison: the two normalized profiles carried by
the figure's two `Scatterpolar` traces, aligned with the requested feature
list, plus the resolved subject record (`player_data`). -/
structure NormalizedComparison where
  avgProfile : List (Option ℚ)
  playerProfile : List (Option ℚ)
  subject : PlayerRecord
deriving DecidableEq

/-- Embedding of `player_radar_chart` (lines 58-104): resolve the first
record named `player_name` (`df[df[Name] == player_name]` with `.iloc[0]`
reads), return `none` when the selection is empty, otherwise normalize the
peer-group mean and the subject's raw values feature by feature against the
peer-group min and max. -/
def player_radar_chart (df : List PlayerRecord) (player_name : String)
    (features : List String) : Option NormalizedComparison :=
  match df.find? (fun r => r.Name == player_name) with
  | none => none
  | some subject =>
      some { avgProfile := features.map (fun f =>
               normEntry (some (colMean (peerVals (peerGroup df subject) f)))
                 (peerVals (peerGroup df subject) f)),
             playerProfile := features.map (fun f =>
               normEntry (getAttr subject f) (peerVals (peerGroup df subject) f)),
             subject := subject }

/-- Session state threaded through a call: the loaded data frame and the
log of messages emitted through `st.error`. -/
structure Session where
  df : List PlayerRecord
  errorLog : List String

/-- The comparison as the source runs it against session state: on a failed
lookup an error message is emitted (`st.error`, line 61) and `None` is
returned; every data-frame operation used (boolean-mask selection, `mean`,
`min`, `max`, `iloc`) is non-mutating, so the data frame component is
passed through unchanged. -/
def player_radar_chart_run (s : Session) (player_name : String)
    (features : List String) : Option NormalizedComparison × Session :=
  match player_radar_chart s.df player_name features with
  | none => (none, { s with errorLog :=
      s.errorLog ++ ["Player " ++ player_name ++ " not found in the dataset."] })
  | some nc => (some nc, s)

/-- The four known positions, in the order of the source's list
(line 107). -/
def positions : List String := ["defender", "midfielder", "striker", "goalkeeper"]

/-- The per-position required feature lists (the `features` dictionary,
lines 123-128), in source order. -/
def posFeatures : String → List String
  | "defender" => ["Age", "Appearances", "Distance / 90 minutes", "Interception"]
  | "midfielder" => ["Appearances", "Key Passes", "Pass Attempt / 90 minutes",
      "Pass Completed / 90 minutes", "Tackle Attempt", "Tackle Won"]
  | "striker" => ["Appearances", "Goals", "Interception", "Key Passes", "Shots on Target"]
  | "goalkeeper" => ["Age", "Appearances", "Conceded", "Shutouts"]
  | _ => []

/-- ASCII lowercasing of one character, as Python `str.lower` acts on the
ASCII range (every position string handled by the program is ASCII). -/
def pyLowerChar (c : Char) : Char :=
  if 65 ≤ c.toNat ∧ c.toNat ≤ 90 then Char.ofNat (c.toNat + 32) else c

/-- Python's `str.lower` on ASCII strings: lowercase every character. -/
def pyLower (s : String) : String := ⟨s.data.map pyLowerChar⟩

/-- The input record of `predict_player_performance`: a dictionary holding
the `Position` string and numeric attributes. -/
structure PlayerData where
  Position : String
  attrs : List (String × ℚ)
deriving DecidableEq

/-- Dictionary lookup `player_data[feature]`; `none` models an absent key
(whose access raises `KeyError` in the source). -/
def getPD (pd : PlayerData) (k : String) : Option ℚ :=
  (pd.attrs.find? (fun kv => kv.1 == k)).map (fun kv => kv.2)

/-- Path of a position's classifier artifact (line 112). -/
def modelPath (p : String) : String := "model/" ++ p ++ "_model.joblib"

/-- Path of a position's scaler artifact (line 113). -/
def scalerPath (p : String) : String := "model/" ++ p ++ "_scaler.joblib"

/-- The environment of a prediction call: whether `joblib.load` succeeds at
a path, the behaviour of each position's loaded scaler on a single input
row, and the first predicted label of each position's loaded classifier on
the scaled row. -/
structure ModelStore where
  loadOk : String → Bool
  transform : String → List ℚ → List ℚ
  predictFn : String → List ℚ → String

/-- The possible outcomes of a prediction call: a returned label
(`prediction[0]`), the returned string for an unknown position, an uncaught
`KeyError` on a missing dictionary key, or an uncaught artifact-load
exception. -/
inductive PredictOutcome where
  | label (l : String)
  | invalidPosition
  | keyError (k : String)
  | loadFailure (path : String)
deriving DecidableEq

/-- The artifact-loading loop (lines 111-116): for each position in order,
load the model then the scaler.  Returns the first failing path, if any,
together with the list of load attempts made (a failed load raises, ending
the loop). -/
def loadLoop (store : ModelStore) : List String → Option String × List String
  | [] => (none, [])
  | p :: rest =>
      if store.loadOk (modelPath p) then
        if store.loadOk (scalerPath p) then
          ((loadLoop store rest).1, modelPath p :: scalerPath p :: (loadLoop store rest).2)
        else (some (scalerPath p), [modelPath p, scalerPath p])
      else (some (modelPath p), [modelPath p])

/-- All eight artifact paths touched by one call, in load order. -/
def loadPaths : List String :=
  positions.flatMap (fun p => [modelPath p, scalerPath p])

/-- The ordered input vector `[player_data[f] for f in features[position]]`
(line 130): the first missing key raises `KeyError` with that key. -/
def buildX (pd : PlayerData) : List String → Except String (List ℚ)
  | [] => Except.ok []
  | f :: fs =>
      match getPD pd f with
      | none => Except.error f
      | some v => (buildX pd fs).map (fun xs => v :: xs)

/-- What happens after all eight loads succeed (lines 118-134): lowercase
the position, reject unknown positions, build the feature vector, scale it
and classify it. -/
def predictAfterLoads (store : ModelStore) (pd : PlayerData) : PredictOutcome :=
  if positions.contains (pyLower pd.Position) then
    match buildX pd (posFeatures (pyLower pd.Position)) with
    | Except.error k => PredictOutcome.keyError k
    | Except.ok X => PredictOutcome.label
        (store.predictFn (pyLower pd.Position) (store.transform (pyLower pd.Position) X))
  else PredictOutcome.invalidPosition

/-- Embedding of `predict_player_performance` (lines 106-134), returning
the outcome together with the trace of artifact-load attempts made. -/
def predict_player_performance (store : ModelStore) (pd : PlayerData) :
    PredictOutcome × List String :=
  match loadLoop store positions with
  | (some path, trace) => (PredictOutcome.loadFailure path, trace)
  | (none, trace) => (predictAfterLoads store pd, trace)

/-- The first feature of a list for which the record holds no value: the
key on which the source's list comprehension raises `KeyError`. -/
def firstMissing (pd : PlayerData) (fs : List String) : Option String :=
  fs.find? (fun f => (getPD pd f).isNone)

/-! Concrete data used by the closed witness and counterexample
statements. -/

/-- A store on which every artifact load succeeds, scalers are the
identity, and every classifier answers Good. -/
def storeAllOk : ModelStore :=
  { loadOk := fun _ => true, transform := fun _ x => x, predictFn := fun _ _ => "Good" }

/-- A store on which loading the striker scaler fails and every other load
succeeds. -/
def storeBad : ModelStore :=
  { loadOk := fun q => !(q == "model/striker_scaler.joblib"),
    transform := fun _ x => x, predictFn := fun _ _ => "Good" }

/-- An input record with the unknown position Wingback. -/
def pdWingback : PlayerData := { Position := "Wingback", attrs := [] }

/-- A midfielder record holding five of the six required midfielder
features and lacking Tackle Won. -/
def pdMidMissing : PlayerData :=
  { Position := "Midfielder",
    attrs := [("Appearances", 10), ("Key Passes", 5), ("Pass Attempt / 90 minutes", 30),
              ("Pass Completed / 90 minutes", 25), ("Tackle Attempt", 7)] }

/-- A goalkeeper record holding the four goalkeeper features and nothing
else. -/
def pdGK1 : PlayerData :=
  { Position := "Goalkeeper",
    attrs := [("Age", 25), ("Appearances", 30), ("Conceded", 20), ("Shutouts", 9)] }

/-- A second goalkeeper record with the same four goalkeeper feature values
as `pdGK1`, a differently cased position string, and extra unrelated
attributes (striker features). -/
def pdGK2 : PlayerData :=
  { Position := "GOALKEEPER",
    attrs := [("Goals", 50), ("Shots on Target", 40), ("Age", 25), ("Appearances", 30),
              ("Conceded", 20), ("Shutouts", 9), ("Interception", 2)] }

/-- A defender with interception value 10. -/
def defA : PlayerRecord :=
  { Name := "Alice", Position := "Defender", attrs := [("Interception", 10)] }

/-- A second defender with interception value 20. -/
def defB : PlayerRecord :=
  { Name := "Bob", Position := "Defender", attrs := [("Interception", 20)] }

/-- A goalkeeper, peer of no defender. -/
def gkC : PlayerRecord :=
  { Name := "Cara", Position := "Goalkeeper", attrs := [("Interception", 3)] }

/-- A three-player dataset with two defenders and a goalkeeper. -/
def dfW : List PlayerRecord := [defA, defB, gkC]

/-- A second record also named Alice, at a different position: a duplicate
name for the tie-break analysis. -/
def gkAlice2 : PlayerRecord :=
  { Name := "Alice", Position := "Goalkeeper", attrs := [("Interception", 7)] }

/-- A goalkeeper who is the only player at that position in the one-record
dataset used for the degenerate-normalization analysis. -/
def gkSolo : PlayerRecord :=
  { Name := "Solo", Position := "Goalkeeper", attrs := [("Goals", 3)] }

/-- The comparison the engine computes for Solo over `[gkSolo]`: the peer
group is the singleton, min = max = 3, and both entries are undefined. -/
def ncSolo : NormalizedComparison :=
  { avgProfile := [none], playerProfile := [none], subject := gkSolo }

/-- The comparison the engine computes for Alice over `dfW`: the defender
peer values for Interception are 10 and 20, so the peer mean 15 normalizes
to 1/2 and Alice's 10 to 0. -/
def ncA : NormalizedComparison :=
  { avgProfile := [some (1/2)], playerProfile := [some 0], subject := defA }

/-! Helper lemmas about the embedded operations. -/

theorem radar_inversion (df : List PlayerRecord) (n : String) (fs : List String)
    (nc : NormalizedComparison) (h : player_radar_chart df n fs = some nc) :
    df.find? (fun r => r.Name == n) = some nc.subject ∧
    nc.avgProfile = fs.map (fun f =>
      normEntry (some (colMean (peerVals (peerGroup df nc.subject) f)))
        (peerVals (peerGroup df nc.subject) f)) ∧
    nc.playerProfile = fs.map (fun f =>
      normEntry (getAttr nc.subject f) (peerVals (peerGroup df nc.subject) f)) := by
  unfold player_radar_chart at h
  cases hfind : df.find? (fun r => r.Name == n) with
  | none => rw [hfind] at h; exact absurd h (by simp)
  | some s =>
      rw [hfind] at h
      injection h with h
      subst h
      exact ⟨rfl, rfl, rfl⟩

theorem foldl_min_le_init (l : List ℚ) (a : ℚ) : l.foldl min a ≤ a := by
  induction l generalizing a with
  | nil => exact le_refl a
  | cons x xs ih =>
      calc (x :: xs).foldl min a = xs.foldl min (min a x) := rfl
        _ ≤ min a x := ih (min a x)
        _ ≤ a := min_le_left a x

theorem foldl_min_le_mem (l : List ℚ) (a x : ℚ) (hx : x ∈ l) : l.foldl min a ≤ x := by
  induction l generalizing a with
  | nil => cases hx
  | cons y ys ih =>
      rcases List.mem_cons.mp hx with h | h
      · subst h
        calc (x :: ys).foldl min a = ys.foldl min (min a x) := rfl
          _ ≤ min a x := foldl_min_le_init ys (min a x)
          _ ≤ x := min_le_right a x
      · exact ih (min a y) h

theorem le_foldl_max_init (l : List ℚ) (a : ℚ) : a ≤ l.foldl max a := by
  induction l generalizing a with
  | nil => exact le_refl a
  | cons x xs ih =>
      calc a ≤ max a x := le_max_left a x
        _ ≤ xs.foldl max (max a x) := ih (max a x)
        _ = (x :: xs).foldl max a := rfl

theorem mem_le_foldl_max (l : List ℚ) (a x : ℚ) (hx : x ∈ l) : x ≤ l.foldl max a := by
  induction l generalizing a with
  | nil => cases hx
  | cons y ys ih =>
      rcases List.mem_cons.mp hx with h | h
      · subst h
        calc x ≤ max a x := le_max_right a x
          _ ≤ ys.foldl max (max a x) := le_foldl_max_init ys (max a x)
          _ = (x :: ys).foldl max a := rfl
      · exact ih (max a y) h

theorem colMin_le (l : List ℚ) (mn : ℚ) (h : colMin l = some mn) :
    ∀ x ∈ l, mn ≤ x := by
  cases l with
  | nil => simp [colMin] at h
  | cons y ys =>
      injection h with h
      subst h
      intro x hx
      rcases List.mem_cons.mp hx with h | h
      · subst h; exact foldl_min_le_init ys x
      · exact foldl_min_le_mem ys y x h

theorem le_colMax (l : List ℚ) (mx : ℚ) (h : colMax l = some mx) :
    ∀ x ∈ l, x ≤ mx := by
  cases l with
  | nil => simp [colMax] at h
  | cons y ys =>
      injection h with h
      subst h
      intro x hx
      rcases List.mem_cons.mp hx with h | h
      · subst h; exact le_foldl_max_init ys x
      · exact mem_le_foldl_max ys y x h

theorem colMin_nonempty (l : List ℚ) (mn : ℚ) (h : colMin l = some mn) : l ≠ [] := by
  cases l with
  | nil => simp [colMin] at h
  | cons y ys => exact List.cons_ne_nil y ys

theorem colMean_bounds (l : List ℚ) (mn mx : ℚ) (hmn : colMin l = some mn)
    (hmx : colMax l = some mx) : mn ≤ colMean l ∧ colMean l ≤ mx := by
  have hne : l ≠ [] := colMin_nonempty l mn hmn
  have hlen : 0 < (l.length : ℚ) := by
    have : 0 < l.length := List.length_pos.mpr hne
    exact_mod_cast this
  have hlow : l.length • mn ≤ l.sum := List.card_nsmul_le_sum l mn (colMin_le l mn hmn)
  have hhigh : l.sum ≤ l.length • mx := List.sum_le_card_nsmul l mx (le_colMax l mx hmx)
  rw [nsmul_eq_mul] at hlow hhigh
  constructor
  · rw [colMean, le_div_iff₀ hlen]
    calc mn * (l.length : ℚ) = (l.length : ℚ) * mn := mul_comm mn _
      _ ≤ l.sum := hlow
  · rw [colMean, div_le_iff₀ hlen]
    calc l.sum ≤ (l.length : ℚ) * mx := hhigh
      _ = mx * (l.length : ℚ) := mul_comm _ mx

theorem normalize_bounds (v mn mx : ℚ) (hlt : mn < mx) (h1 : mn ≤ v) (h2 : v ≤ mx) :
    normalize v mn mx = some ((v - mn) / (mx - mn)) ∧
    0 ≤ (v - mn) / (mx - mn) ∧ (v - mn) / (mx - mn) ≤ 1 ∧
    v = mn + ((v - mn) / (mx - mn)) * (mx - mn) := by
  have hpos : 0 < mx - mn := sub_pos.mpr hlt
  have hd : mx - mn ≠ 0 := ne_of_gt hpos
  refine ⟨by rw [normalize, if_neg hd], ?_, ?_, ?_⟩
  · exact div_nonneg (sub_nonneg.mpr h1) (le_of_lt hpos)
  · exact (div_le_one hpos).mpr (sub_le_sub_right h2 mn)
  · rw [div_mul_cancel₀ (v - mn) hd]; ring

theorem normEntry_some_eq (x : ℚ) (vals : List ℚ) (mn mx : ℚ)
    (hmn : colMin vals = some mn) (hmx : colMax vals = some mx) :
    normEntry (some x) vals = normalize x mn mx := by
  unfold normEntry
  rw [hmn, hmx]

theorem normEntry_none_eq (vals : List ℚ) : normEntry none vals = none := by
  unfold normEntry
  cases colMin vals <;> cases colMax vals <;> rfl

theorem subject_mem_peerVals (df : List PlayerRecord) (n : String)
    (subject : PlayerRecord) (f : String) (v : ℚ)
    (hfind : df.find? (fun r => r.Name == n) = some subject)
    (hv : getAttr subject f = some v) :
    v ∈ peerVals (peerGroup df subject) f := by
  have hmem : subject ∈ df := List.mem_of_find?_eq_some hfind
  have hpeer : subject ∈ peerGroup df subject := by
    rw [peerGroup, List.mem_filter]
    exact ⟨hmem, by simp⟩
  exact List.mem_filterMap.mpr ⟨subject, hpeer, hv⟩

theorem list_find_at_first_index {α : Type} (p : α → Bool) (l : List α) :
    ∀ (i : Nat) (hi : i < l.length),
      p (l.get ⟨i, hi⟩) = true →
      (∀ j (hj : j < i), p (l.get ⟨j, Nat.lt_trans hj hi⟩) = false) →
      l.find? p = some (l.get ⟨i, hi⟩) := by
  induction l with
  | nil => intro i hi; exact absurd hi (by simp)
  | cons x xs ih =>
      intro i hi hp hfirst
      cases i with
      | zero => exact List.find?_cons_of_pos xs hp
      | succ k =>
          have hx : p x = false := hfirst 0 (Nat.succ_pos k)
          rw [List.find?_cons_of_neg xs (by simp [hx])]
          have hk : k < xs.length := Nat.lt_of_succ_lt_succ hi
          exact ih k hk hp (fun j hj => hfirst (j + 1) (Nat.succ_lt_succ hj))

theorem loadLoop_ok (store : ModelStore) (l : List String)
    (h : ∀ p ∈ l, store.loadOk (modelPath p) = true ∧ store.loadOk (scalerPath p) = true) :
    loadLoop store l = (none, l.flatMap (fun p => [modelPath p, scalerPath p])) := by
  induction l with
  | nil => rfl
  | cons p ps ih =>
      obtain ⟨hm, hs⟩ := h p (List.mem_cons_self p ps)
      have hrest := ih (fun q hq => h q (List.mem_cons_of_mem p hq))
      simp [loadLoop, hm, hs, hrest]

theorem loadLoop_none_ok (store : ModelStore) (l : List String)
    (h : (loadLoop store l).1 = none) :
    ∀ p ∈ l, store.loadOk (modelPath p) = true ∧ store.loadOk (scalerPath p) = true := by
  induction l with
  | nil => intro p hp; cases hp
  | cons q qs ih =>
      intro p hp
      by_cases hm : store.loadOk (modelPath q) = true
      · by_cases hs : store.loadOk (scalerPath q) = true
        · rcases List.mem_cons.mp hp with h1 | h1
          · subst h1; exact ⟨hm, hs⟩
          · exact ih (by simpa [loadLoop, hm, hs] using h) p h1
        · exact absurd h (by simp [loadLoop, hm, hs])
      · exact absurd h (by simp [loadLoop, hm])

theorem mem_loadPaths_of_position (p : String) (hp : p ∈ positions) :
    modelPath p ∈ loadPaths ∧ scalerPath p ∈ loadPaths := by
  constructor <;>
    · rw [loadPaths]
      exact List.mem_flatMap.mpr ⟨p, hp, by simp⟩

theorem loadPaths_all_ok (store : ModelStore)
    (hok : ∀ q ∈ loadPaths, store.loadOk q = true) :
    ∀ p ∈ positions, store.loadOk (modelPath p) = true ∧ store.loadOk (scalerPath p) = true := by
  intro p hp
  obtain ⟨h1, h2⟩ := mem_loadPaths_of_position p hp
  exact ⟨hok _ h1, hok _ h2⟩

theorem predict_after_all_ok (store : ModelStore) (pd : PlayerData)
    (hok : ∀ q ∈ loadPaths, store.loadOk q = true) :
    predict_player_performance store pd = (predictAfterLoads store pd, loadPaths) := by
  have hloop : loadLoop store positions = (none, loadPaths) := by
    rw [loadLoop_ok store positions (loadPaths_all_ok store hok), loadPaths]
  unfold predict_player_performance
  rw [hloop]

theorem buildX_error_of_firstMissing (pd : PlayerData) (fs : List String) (f : String)
    (h : firstMissing pd fs = some f) : buildX pd fs = Except.error f := by
  induction fs with
  | nil => simp [firstMissing] at h
  | cons g gs ih =>
      cases hg : getPD pd g with
      | none =>
          have hhead : firstMissing pd (g :: gs) = some g := by
            unfold firstMissing
            rw [List.find?_cons_of_pos _ (by simp [hg])]
          rw [hhead] at h
          injection h with h
          subst h
          simp [buildX, hg]
      | some v =>
          have htail : firstMissing pd gs = some f := by
            unfold firstMissing at h ⊢
            rwa [List.find?_cons_of_neg _ (by simp [hg])] at h
          simp [buildX, hg, ih htail, Except.map]

/-! The claims. -/

/-- C6: whenever the requested player name is absent from the dataset's
Name column, `player_radar_chart` returns the failure outcome `none` (the
source's early `return None` after `st.error`), computing no peer group, no
normalization and no output sequences. -/
theorem c6_player_not_found (df : List PlayerRecord) (n : String)
    (fs : List String) (h : ∀ r ∈ df, r.Name ≠ n) :
    player_radar_chart df n fs = none := by
  have hf : df.find? (fun r => r.Name == n) = none := by
    rw [List.find?_eq_none]
    intro r hr
    simpa using h r hr
  unfold player_radar_chart
  rw [hf]

/-- Witness for C6: the concrete three-player dataset holds no record named
Zoe, and the comparison for Zoe indeed fails. -/
theorem c6_witness : player_radar_chart dfW "Zoe" ["Interception"] = none :=
  c6_player_not_found dfW "Zoe" ["Interception"] (by decide)

/-- C7: when a comparison succeeds, the resolved subject is a record of the
dataset, the peer group is exactly the set of records whose Position equals
the subject's Position under exact (case-sensitive) string equality, and
the subject belongs to its own peer group. -/
theorem c7_peer_group (df : List PlayerRecord) (n : String) (fs : List String)
    (nc : NormalizedComparison) (h : player_radar_chart df n fs = some nc) :
    nc.subject ∈ df ∧
    nc.subject ∈ peerGroup df nc.subject ∧
    (∀ r : PlayerRecord,
      r ∈ peerGroup df nc.subject ↔ r ∈ df ∧ r.Position = nc.subject.Position) := by
  obtain ⟨hfind, -, -⟩ := radar_inversion df n fs nc h
  have hmem : nc.subject ∈ df := List.mem_of_find?_eq_some hfind
  have hiff : ∀ r : PlayerRecord,
      r ∈ peerGroup df nc.subject ↔ r ∈ df ∧ r.Position = nc.subject.Position := by
    intro r
    rw [peerGroup, List.mem_filter]
    simp
  exact ⟨hmem, (hiff nc.subject).mpr ⟨hmem, rfl⟩, hiff⟩

/-- Witness for C7: instantiated on the concrete dataset, with Alice as
subject; Bob is a fellow defender and is characterised as a peer. -/
theorem c7_witness :
    ncA.subject ∈ dfW ∧
    ncA.subject ∈ peerGroup dfW ncA.subject ∧
    (defB ∈ peerGroup dfW ncA.subject ↔ defB ∈ dfW ∧ defB.Position = ncA.subject.Position) := by
  have h := c7_peer_group dfW "Alice" ["Interception"] ncA (by
    norm_num [player_radar_chart, dfW, defA, defB, gkC, ncA, peerGroup, peerVals,
      getAttr, colMin, colMax, colMean, normalize, normEntry, List.find?, List.filter,
      List.filterMap])
  exact ⟨h.1, h.2.1, h.2.2 defB⟩

/-- C9: when the dataset holds several records with the requested name (or
just one), the subject resolved by `player_radar_chart` is the first record
with that name in dataset order, and both output profiles are computed from
that record: its Position fixes the peer group and its raw values are the
ones normalized. -/
theorem c9_first_match (df : List PlayerRecord) (n : String) (fs : List String)
    (i : Nat) (hi : i < df.length)
    (hname : (df.get ⟨i, hi⟩).Name = n)
    (hfirst : ∀ j (hj : j < i), (df.get ⟨j, Nat.lt_trans hj hi⟩).Name ≠ n) :
    ∃ nc : NormalizedComparison,
      player_radar_chart df n fs = some nc ∧
      nc.subject = df.get ⟨i, hi⟩ ∧
      nc.avgProfile = fs.map (fun f =>
        normEntry (some (colMean (peerVals (peerGroup df (df.get ⟨i, hi⟩)) f)))
          (peerVals (peerGroup df (df.get ⟨i, hi⟩)) f)) ∧
      nc.playerProfile = fs.map (fun f =>
        normEntry (getAttr (df.get ⟨i, hi⟩) f)
          (peerVals (peerGroup df (df.get ⟨i, hi⟩)) f)) := by
  have hfind : df.find? (fun r => r.Name == n) = some (df.get ⟨i, hi⟩) := by
    apply list_find_at_first_index
    · simpa using hname
    · intro j hj; simpa using hfirst j hj
  have hres : player_radar_chart df n fs =
      some { avgProfile := fs.map (fun f =>
               normEntry (some (colMean (peerVals (peerGroup df (df.get ⟨i, hi⟩)) f)))
                 (peerVals (peerGroup df (df.get ⟨i, hi⟩)) f)),
             playerProfile := fs.map (fun f =>
               normEntry (getAttr (df.get ⟨i, hi⟩) f)
                 (peerVals (peerGroup df (df.get ⟨i, hi⟩)) f)),
             subject := df.get ⟨i, hi⟩ } := by
    unfold player_radar_chart
    rw [hfind]
  exact ⟨_, hres, rfl, rfl, rfl⟩

/-- Witness for C9: a dataset holding Bob followed by two records named
Alice; the subject resolved for Alice is the one at index 1, the first of
the two duplicates. -/
theorem c9_witness :
    ∃ nc : NormalizedComparison,
      player_radar_chart [defB, defA, gkAlice2] "Alice" ["Interception"] = some nc ∧
      nc.subject = [defB, defA, gkAlice2].get ⟨1, by decide⟩ ∧
      nc.avgProfile = ["Interception"].map (fun f =>
        normEntry (some (colMean (peerVals (peerGroup [defB, defA, gkAlice2]
            ([defB, defA, gkAlice2].get ⟨1, by decide⟩)) f)))
          (peerVals (peerGroup [defB, defA, gkAlice2]
            ([defB, defA, gkAlice2].get ⟨1, by decide⟩)) f)) ∧
      nc.playerProfile = ["Interception"].map (fun f =>
        normEntry (getAttr ([defB, defA, gkAlice2].get ⟨1, by decide⟩) f)
          (peerVals (peerGroup [defB, defA, gkAlice2]
            ([defB, defA, gkAlice2].get ⟨1, by decide⟩)) f)) :=
  c9_first_match [defB, defA, gkAlice2] "Alice" ["Interception"] 1 (by decide)
    (by decide)
    (by
      intro j hj
      have hj0 : j = 0 := by omega
      subst hj0
      exact (by decide : ([defB, defA, gkAlice2].get ⟨0, Nat.succ_pos 2⟩).Name ≠ "Alice"))

/-- C4: for any feature of the requested list whose peer-group max exceeds
its min, both normalized entries produced by the comparison are defined and
lie in [0,1], and the subject's raw value is recovered as
`min + normalized * (max - min)` (exact in ℚ, within floating-point
tolerance in the source).  The subject is assumed to carry a value for the
feature, as the data model requires. -/
theorem c4_round_trip (df : List PlayerRecord) (n : String) (fs : List String)
    (nc : NormalizedComparison) (i : Nat) (f : String) (mn mx v : ℚ)
    (hres : player_radar_chart df n fs = some nc)
    (hf : fs[i]? = some f)
    (hmn : colMin (peerVals (peerGroup df nc.subject) f) = some mn)
    (hmx : colMax (peerVals (peerGroup df nc.subject) f) = some mx)
    (hlt : mn < mx)
    (hv : getAttr nc.subject f = some v) :
    ∃ a p : ℚ,
      nc.avgProfile[i]? = some (some a) ∧
      nc.playerProfile[i]? = some (some p) ∧
      0 ≤ a ∧ a ≤ 1 ∧ 0 ≤ p ∧ p ≤ 1 ∧
      v = mn + p * (mx - mn) := by
  obtain ⟨hfind, havg, hplayer⟩ := radar_inversion df n fs nc hres
  have hmean := colMean_bounds (peerVals (peerGroup df nc.subject) f) mn mx hmn hmx
  obtain ⟨hnormA, ha0, ha1, -⟩ :=
    normalize_bounds (colMean (peerVals (peerGroup df nc.subject) f)) mn mx hlt
      hmean.1 hmean.2
  have hvmem : v ∈ peerVals (peerGroup df nc.subject) f :=
    subject_mem_peerVals df n nc.subject f v hfind hv
  have hv1 : mn ≤ v := colMin_le _ mn hmn v hvmem
  have hv2 : v ≤ mx := le_colMax _ mx hmx v hvmem
  obtain ⟨hnormP, hp0, hp1, hrt⟩ := normalize_bounds v mn mx hlt hv1 hv2
  refine ⟨(colMean (peerVals (peerGroup df nc.subject) f) - mn) / (mx - mn),
    (v - mn) / (mx - mn), ?_, ?_, ha0, ha1, hp0, hp1, hrt⟩
  · rw [havg]
    simp only [List.getElem?_map, hf, Option.map_some']
    rw [normEntry_some_eq _ _ mn mx hmn hmx, hnormA]
  · rw [hplayer]
    simp only [List.getElem?_map, hf, Option.map_some']
    rw [hv, normEntry_some_eq _ _ mn mx hmn hmx, hnormP]

/-- Witness for C4: the spec's own example, two defenders with values 10
and 20 on a single feature; the peer mean normalizes to 1/2, the subject to
0, and the subject's raw value 10 is recovered from the round trip. -/
theorem c4_witness :
    ∃ a p : ℚ,
      ncA.avgProfile[0]? = some (some a) ∧
      ncA.playerProfile[0]? = some (some p) ∧
      0 ≤ a ∧ a ≤ 1 ∧ 0 ≤ p ∧ p ≤ 1 ∧
      (10 : ℚ) = 10 + p * (20 - 10) :=
  c4_round_trip dfW "Alice" ["Interception"] ncA 0 "Interception" 10 20 10
    (by
      norm_num [player_radar_chart, dfW, defA, defB, gkC, ncA, peerGroup, peerVals,
        getAttr, colMin, colMax, colMean, normalize, normEntry, List.find?, List.filter,
        List.filterMap])
    (by decide)
    (by
      norm_num [dfW, defA, defB, gkC, ncA, peerGroup, peerVals, getAttr, colMin,
        List.filter, List.filterMap])
    (by
      norm_num [dfW, defA, defB, gkC, ncA, peerGroup, peerVals, getAttr, colMax,
        List.filter, List.filterMap])
    (by norm_num)
    (by norm_num [ncA, defA, getAttr, List.find?])

/-- C1 counterexample: on a dataset whose only goalkeeper is the subject,
the Goals feature has peer-group max equal to min, and the comparison emits
the undefined marker (`none`, the embedding of the NaN produced by the
source's float division) in both output sequences — no defined numeric
fallback such as 0.0 is applied, so the claim as stated fails. -/
theorem c1_counterexample :
    (player_radar_chart [gkSolo] "Solo" ["Goals"]).map
        (fun nc => (nc.avgProfile, nc.playerProfile)) = some ([none], [none]) ∧
    (player_radar_chart [gkSolo] "Solo" ["Goals"]).map
        (fun nc => nc.playerProfile) ≠ some [some 0] := by
  have h1 : (player_radar_chart [gkSolo] "Solo" ["Goals"]).map
      (fun nc => (nc.avgProfile, nc.playerProfile)) = some ([none], [none]) := by
    norm_num [player_radar_chart, gkSolo, peerGroup, peerVals, getAttr, colMin,
      colMax, colMean, normalize, normEntry, List.find?, List.filter, List.filterMap]
  have h2 : (player_radar_chart [gkSolo] "Solo" ["Goals"]).map
      (fun nc => nc.playerProfile) = some [none] := by
    norm_num [player_radar_chart, gkSolo, peerGroup, peerVals, getAttr, colMin,
      colMax, colMean, normalize, normEntry, List.find?, List.filter, List.filterMap]
  refine ⟨h1, ?_⟩
  rw [h2]
  simp

/-- C1 as amended: whenever a feature's peer-group max equals its min, the
comparison produces the undefined (NaN) marker for that feature's entry in
both output sequences; no fallback value is applied. -/
theorem c1_degenerate_nan (df : List PlayerRecord) (n : String) (fs : List String)
    (nc : NormalizedComparison) (i : Nat) (f : String) (mn mx : ℚ)
    (hres : player_radar_chart df n fs = some nc)
    (hf : fs[i]? = some f)
    (hmn : colMin (peerVals (peerGroup df nc.subject) f) = some mn)
    (hmx : colMax (peerVals (peerGroup df nc.subject) f) = some mx)
    (heq : mn = mx) :
    nc.avgProfile[i]? = some none ∧ nc.playerProfile[i]? = some none := by
  obtain ⟨-, havg, hplayer⟩ := radar_inversion df n fs nc hres
  have hz : mx - mn = 0 := by rw [heq, sub_self]
  constructor
  · rw [havg]
    simp only [List.getElem?_map, hf, Option.map_some']
    rw [normEntry_some_eq _ _ mn mx hmn hmx, normalize, if_pos hz]
  · rw [hplayer]
    simp only [List.getElem?_map, hf, Option.map_some']
    cases hv : getAttr nc.subject f with
    | none => rw [normEntry_none_eq]
    | some v => rw [normEntry_some_eq _ _ mn mx hmn hmx, normalize, if_pos hz]

/-- Witness for the amended C1: the sole goalkeeper's Goals column has
min = max = 3, and both entries are the undefined marker. -/
theorem c1_amended_witness :
    (ncSolo.avgProfile[0]? = some none ∧ ncSolo.playerProfile[0]? = some none) :=
  c1_degenerate_nan [gkSolo] "Solo" ["Goals"] ncSolo 0 "Goals" 3 3
    (by
      norm_num [player_radar_chart, gkSolo, ncSolo, peerGroup, peerVals, getAttr,
        colMin, colMax, colMean, normalize, normEntry, List.find?, List.filter,
        List.filterMap])
    (by decide)
    (by
      norm_num [gkSolo, ncSolo, peerGroup, peerVals, getAttr, colMin, List.filter,
        List.filterMap])
    (by
      norm_num [gkSolo, ncSolo, peerGroup, peerVals, getAttr, colMax, List.filter,
        List.filterMap])
    rfl

/-- C8: the comparison is deterministic and side-effect free with respect
to the session: running it twice with identical inputs yields identical
results, and neither run changes the data frame (the only session component
a run may touch is the error log, via `st.error`). -/
theorem c8_idempotent_pure (s : Session) (n : String) (fs : List String) :
    (player_radar_chart_run s n fs).1
      = (player_radar_chart_run (player_radar_chart_run s n fs).2 n fs).1 ∧
    (player_radar_chart_run s n fs).2.df = s.df ∧
    (player_radar_chart_run (player_radar_chart_run s n fs).2 n fs).2.df = s.df := by
  unfold player_radar_chart_run
  cases h : player_radar_chart s.df n fs <;> simp [h]

/-- C2 counterexample: with every artifact loadable and the unknown
position Wingback, the call does return the invalid-position outcome, but
only after attempting all eight artifact loads — the claim that no artifact
load is attempted before the failure is false; the outcome also carries no
offending value (the source returns the constant string Invalid position). -/
theorem c2_counterexample :
    (predict_player_performance storeAllOk pdWingback).1 = PredictOutcome.invalidPosition ∧
    (predict_player_performance storeAllOk pdWingback).2 = loadPaths ∧
    loadPaths ≠ [] := by decide

/-- C2 as amended: for any record whose lowercased position is unknown,
prediction returns the invalid-position outcome (a constant, not carrying
the value), and the trace shows all eight artifact-load attempts performed
before the validation. -/
theorem c2_invalid_after_loads (store : ModelStore) (pd : PlayerData)
    (hok : ∀ q ∈ loadPaths, store.loadOk q = true)
    (hpos : positions.contains (pyLower pd.Position) = false) :
    predict_player_performance store pd = (PredictOutcome.invalidPosition, loadPaths) := by
  rw [predict_after_all_ok store pd hok]
  unfold predictAfterLoads
  rw [hpos]
  rfl

/-- Witness for the amended C2: the Wingback record against the all-ok
store. -/
theorem c2_amended_witness :
    predict_player_performance storeAllOk pdWingback =
      (PredictOutcome.invalidPosition, loadPaths) :=
  c2_invalid_after_loads storeAllOk pdWingback (by decide) (by decide)

/-- C3 counterexample: a midfielder record lacking Tackle Won makes the
call end in the uncaught `KeyError` on that key — an uncontrolled runtime
fault of the source (`player_data[feature]`, line 130), not a typed
MissingFeature outcome, which the code does not possess; the claim as
stated is false. -/
theorem c3_counterexample :
    (predict_player_performance storeAllOk pdMidMissing).1 =
      PredictOutcome.keyError "Tackle Won" := by decide

/-- C3 as amended: for a record with a valid position but lacking some
required attribute, prediction ends in the uncaught `KeyError` naming the
first missing attribute in FeatureSet order, an uncontrolled fault rather
than a typed outcome. -/
theorem c3_keyerror_first_missing (store : ModelStore) (pd : PlayerData) (f : String)
    (hok : ∀ q ∈ loadPaths, store.loadOk q = true)
    (hpos : positions.contains (pyLower pd.Position) = true)
    (hmiss : firstMissing pd (posFeatures (pyLower pd.Position)) = some f) :
    (predict_player_performance store pd).1 = PredictOutcome.keyError f := by
  rw [predict_after_all_ok store pd hok]
  unfold predictAfterLoads
  rw [hpos, if_pos rfl, buildX_error_of_firstMissing pd _ f hmiss]

/-- Witness for the amended C3: the concrete midfielder record missing
Tackle Won, against the all-ok store. -/
theorem c3_amended_witness :
    (predict_player_performance storeAllOk pdMidMissing).1 =
      PredictOutcome.keyError "Tackle Won" ∧ pdMidMissing.Position = "Midfielder" :=
  ⟨c3_keyerror_first_missing storeAllOk pdMidMissing "Tackle Won" (by decide) (by decide)
    (by decide), rfl⟩

/-- C5: for any record whose position lowercases to goalkeeper and which
holds the four goalkeeper features, the vector fed to the scaler is exactly
[Age, Appearances, Conceded, Shutouts] in that order, and the predicted
label depends on nothing else: any two such records with the same four
values (and arbitrary other attributes or position casing) receive the same
outcome. -/
theorem c5_goalkeeper_vector (store : ModelStore) (pd1 pd2 : PlayerData) (a b c d : ℚ)
    (hok : ∀ q ∈ loadPaths, store.loadOk q = true)
    (h1 : pyLower pd1.Position = "goalkeeper")
    (h2 : pyLower pd2.Position = "goalkeeper")
    (ha1 : getPD pd1 "Age" = some a) (hb1 : getPD pd1 "Appearances" = some b)
    (hc1 : getPD pd1 "Conceded" = some c) (hd1 : getPD pd1 "Shutouts" = some d)
    (ha2 : getPD pd2 "Age" = some a) (hb2 : getPD pd2 "Appearances" = some b)
    (hc2 : getPD pd2 "Conceded" = some c) (hd2 : getPD pd2 "Shutouts" = some d) :
    (predict_player_performance store pd1).1 =
      PredictOutcome.label (store.predictFn "goalkeeper"
        (store.transform "goalkeeper" [a, b, c, d])) ∧
    (predict_player_performance store pd2).1 = (predict_player_performance store pd1).1 := by
  have e1 : (predict_player_performance store pd1).1 =
      PredictOutcome.label (store.predictFn "goalkeeper"
        (store.transform "goalkeeper" [a, b, c, d])) := by
    rw [predict_after_all_ok store pd1 hok]
    unfold predictAfterLoads
    rw [h1]
    simp [positions, posFeatures, buildX, ha1, hb1, hc1, hd1, Except.map]
  have e2 : (predict_player_performance store pd2).1 =
      PredictOutcome.label (store.predictFn "goalkeeper"
        (store.transform "goalkeeper" [a, b, c, d])) := by
    rw [predict_after_all_ok store pd2 hok]
    unfold predictAfterLoads
    rw [h2]
    simp [positions, posFeatures, buildX, ha2, hb2, hc2, hd2, Except.map]
  exact ⟨e1, e2.trans e1.symm⟩

/-- Witness for C5: two concrete goalkeeper records sharing the four
goalkeeper values but differing in position casing and extra attributes
receive the same label, built from the vector [25, 30, 20, 9]. -/
theorem c5_witness :
    (predict_player_performance storeAllOk pdGK1).1 =
      PredictOutcome.label (storeAllOk.predictFn "goalkeeper"
        (storeAllOk.transform "goalkeeper" [25, 30, 20, 9])) ∧
    (predict_player_performance storeAllOk pdGK2).1 =
      (predict_player_performance storeAllOk pdGK1).1 :=
  c5_goalkeeper_vector storeAllOk pdGK1 pdGK2 25 30 20 9 (by decide) (by decide)
    (by decide) (by decide) (by decide) (by decide) (by decide) (by decide) (by decide)
    (by decide) (by decide)

/-- C10: on every call, whatever the input record (valid or invalid
position alike), the eight artifact paths of the four positions are the
load attempts performed before any validation: when all loads succeed the
trace is exactly those eight paths, and if any single artifact fails to
load the call ends in a load failure instead of any prediction or
validation outcome. -/
theorem c10_eager_loads (store : ModelStore) (pd : PlayerData) :
    loadPaths.length = 8 ∧
    ((∀ q ∈ loadPaths, store.loadOk q = true) →
      (predict_player_performance store pd).2 = loadPaths) ∧
    (∀ q, q ∈ loadPaths → store.loadOk q = false →
      ∃ path, (predict_player_performance store pd).1 = PredictOutcome.loadFailure path) := by
  refine ⟨by decide, ?_, ?_⟩
  · intro hok
    rw [predict_after_all_ok store pd hok]
  · intro q hq hbad
    rcases hloop : loadLoop store positions with ⟨fst, snd⟩
    cases fst with
    | some path =>
        refine ⟨path, ?_⟩
        unfold predict_player_performance
        rw [hloop]
    | none =>
        exfalso
        have hall := loadLoop_none_ok store positions (by rw [hloop])
        rcases List.mem_flatMap.mp (by rwa [loadPaths] at hq) with ⟨p, hp, hq2⟩
        rcases List.mem_cons.mp hq2 with h1 | h1
        · subst h1
          exact absurd (hall p hp).1 (by simp [hbad])
        · have hq3 : q = scalerPath p := by simpa using h1
          subst hq3
          exact absurd (hall p hp).2 (by simp [hbad])

/-- Witness for C10: against the all-ok store the trace is the eight
paths even for the invalid Wingback record, and against the store whose
striker scaler is unloadable the same record's call ends in a load
failure. -/
theorem c10_witness :
    loadPaths.length = 8 ∧
    (predict_player_performance storeAllOk pdWingback).2 = loadPaths ∧
    ∃ path, (predict_player_performance storeBad pdWingback).1 =
      PredictOutcome.loadFailure path :=
  ⟨(c10_eager_loads storeAllOk pdWingback).1,
   (c10_eager_loads storeAllOk pdWingback).2.1 (by decide),
   (c10_eager_loads storeBad pdWingback).2.2 "model/striker_scaler.joblib" (by decide)
     (by decide)⟩

end Soccer
